import Mathlib

/-!
Verification development for the Workona export tooling
(`workona.py` / `gen-bookmarks.py`).

The development has three models, each a shallow embedding of the
corresponding part of the source:

* a reader-state model of `WorkonaQuotePatchReaderMixin.
  patch_buffer_for_unquoted_scalar` and of the composer hook
  `WorkonaMappingNodeComposer.compose_node` (buffer patching);
* a pure value-level model of `make_bookmarks` (dictionaries and lists
  are immutable Lean values, Python exceptions are `Except` errors);
* a store-passing model of `make_bookmarks` in which dictionaries are
  heap objects addressed by references, used to reason about mutation
  of the caller's data.
-/

namespace Workona

/-! ## Reader-state model of the quote-patching mixin

The PyYAML `Reader` keeps a `buffer` (a string of already-read
characters) and a `pointer` (the current consumption position).
`Reader.peek(k)` returns the character at `pointer + k`, transparently
growing the buffer from the stream; once the stream is exhausted the
buffer is terminated by a NUL sentinel, so peeking past the end of the
data yields the NUL character.  We model the buffer as the full list
of characters of the document, with `peek` returning the NUL sentinel
beyond its end. -/

structure ReaderState where
  buffer : List Char
  pointer : Nat
deriving Repr, DecidableEq

/-- The line-terminator class used by the scan loop of
`patch_buffer_for_unquoted_scalar` (taken from `yaml.scanner.Scanner`):
NUL, carriage return, newline, next-line, line separator, paragraph
separator. -/
def isLineTerminator (c : Char) : Bool :=
  c = '\x00' || c = '\x0d' || c = '\x0a' || c = '\x85' || c = ' ' || c = ' '

/-- `Reader.peek(idx)`: the character at `pointer + idx`, with the NUL
sentinel past the end of the document. -/
def peek (buffer : List Char) (pointer idx : Nat) : Char :=
  buffer.getD (pointer + idx) '\x00'

/-- The number of leading spaces the loop
`while self.peek() == ' ': self.forward()` walks over.  The loop
state is the unconsumed suffix of the buffer; peeking past the end of
the document yields the NUL sentinel, which is not a space, so the
loop also stops there. -/
def skip_count : List Char → Nat
  | [] => 0
  | c :: rest => if c = ' ' then skip_count rest + 1 else 0

/-- The leading loop of `patch_buffer_for_unquoted_scalar`:
`while self.peek() == ' ': self.forward()` — the pointer after
advancing past space characters. -/
def skip_spaces (buffer : List Char) (pointer : Nat) : Nat :=
  pointer + skip_count (buffer.drop pointer)

/-- The scan loop of `patch_buffer_for_unquoted_scalar` on the
unconsumed suffix of the buffer: collect characters until one of the
line-terminator class is reached.  Past the end of the document
`peek` yields the NUL sentinel, which is in the terminator class, so
the loop also stops there. -/
def scan_line : List Char → List Char
  | [] => []
  | c :: rest => if isLineTerminator c then [] else c :: scan_line rest

/-- The scan loop, as the source runs it: `ch = self.peek(idx)` with
`idx` counting up from the patch position `pos`. -/
def scan_from (buffer : List Char) (pos : Nat) : List Char :=
  scan_line (buffer.drop pos)

/-- Whitespace stripped by Python's `int()` conversion (the ASCII
fragment; the exports at hand contain no exotic Unicode spaces). -/
def isPySpace (c : Char) : Bool :=
  c = ' ' || c = '\x09' || c = '\x0a' || c = '\x0d' || c = '\x0b' || c = '\x0c'

/-- After the first digit, Python integer literals are digits with
single underscores allowed between digits (an underscore must be
followed by a digit and may not end the literal). -/
def pyDigitsRest : List Char → Bool
  | [] => true
  | c :: rest =>
    if c = '_' then
      match rest with
      | [] => false
      | d :: rest' => d.isDigit && pyDigitsRest rest'
    else
      c.isDigit && pyDigitsRest rest

/-- A nonempty run of decimal digits with single underscores between
digits. -/
def pyDigits : List Char → Bool
  | [] => false
  | c :: rest => c.isDigit && pyDigitsRest rest

/-- `int()`'s whitespace stripping from both ends. -/
def pyStripped (s : List Char) : List Char :=
  ((s.dropWhile isPySpace).reverse.dropWhile isPySpace).reverse

/-- A sign character accepted before the digit run. -/
def isSign (c : Char) : Bool := c = '+' || c = '-'

/-- `int()`'s optional single leading sign. -/
def pySignStripped (t : List Char) : List Char :=
  match t with
  | [] => []
  | c :: r => if isSign c then r else c :: r

/-- Whether Python's `int(s)` succeeds on `s` (the `try: int(scalar)`
test of the source): strip whitespace, allow one optional sign, then
require a digit run. -/
def pyIntParses (s : List Char) : Bool :=
  pyDigits (pySignStripped (pyStripped s))

/-- `scalar.replace('"', r'\"')`: prefix each literal double quote
with a backslash. -/
def escape_quotes : List Char → List Char
  | [] => []
  | c :: rest => if c = '"' then '\\' :: '"' :: escape_quotes rest else c :: escape_quotes rest

/-- `WorkonaQuotePatchReaderMixin.patch_buffer_for_unquoted_scalar`:
skip leading spaces, scan the rest of the line, bail on a blank line
or an integer-valued scalar, otherwise escape double quotes and
replace the scanned span of the buffer with the quoted text. -/
def patch_buffer_for_unquoted_scalar (st : ReaderState) : ReaderState :=
  let pointer := skip_spaces st.buffer st.pointer
  let scalar := scan_from st.buffer pointer
  if scalar.length = 0 then
    { st with pointer := pointer }
  else if pyIntParses scalar then
    { st with pointer := pointer }
  else
    let original_sz := scalar.length
    let scalar := if scalar.contains '"' then escape_quotes scalar else scalar
    { buffer :=
        st.buffer.take pointer
          ++ '"' :: (scalar ++ '"' :: st.buffer.drop (pointer + original_sz)),
      pointer := pointer }

/-! ## Composer hook (`WorkonaMappingNodeComposer.compose_node`) -/

/-- YAML composer nodes (`yaml.nodes`): scalar, mapping and sequence
nodes.  Only the constructor (the `isinstance` class test) and the
scalar text play a role in the composer hook. -/
inductive Node where
  | scalar (value : List Char)
  | mapping (value : List (Node × Node))
  | sequence (value : List Node)

/-- `WorkonaMappingNodeComposer.UNQUOTED_NODE_KEYS`. -/
def UNQUOTED_NODE_KEYS : List (List Char) := ["title".data, "description".data]

/-- The guard of `WorkonaMappingNodeComposer.compose_node`:
`isinstance(parent, MappingNode) and isinstance(index, ScalarNode)`
and `index.value in UNQUOTED_NODE_KEYS`.  PyYAML passes `None` for a
missing parent or index, hence the `Option`. -/
def compose_node_should_patch (parent index : Option Node) : Bool :=
  match parent, index with
  | some (Node.mapping _), some (Node.scalar v) => UNQUOTED_NODE_KEYS.contains v
  | _, _ => false

/-- The effect of `WorkonaMappingNodeComposer.compose_node` on the
reader state: patch the buffer when the guard holds, then delegate to
the base composer (which performs no further buffer rewriting). -/
def compose_node_reader (st : ReaderState) (parent index : Option Node) : ReaderState :=
  if compose_node_should_patch parent index then
    patch_buffer_for_unquoted_scalar st
  else
    st

/-! ## The repaired tokenization path

`yaml_load` runs the patched `WorkonaExportLoader` pipeline.  The
grammar layers below the composer hook belong to the host YAML
library, not to this repository, so they are modelled from the spec
(§4.1): after the patch "the now-quoted scalar parses as an ordinary
quoted string". -/

/-- Modelled from the spec: the body of an ordinary double-quoted
scalar as the external tokenizer consumes it, for a single-line
scalar.  A backslash introduces an escape sequence (this is why the
patch escapes literal double quotes); the escapes that wrapped
single-line text can produce are backslash-quote and
backslash-backslash, and any other escape is rejected by the grammar.
A line terminator before the closing quote leaves the single-line
fragment modelled here and is treated as a failure.  Returns the
decoded text and the unconsumed remainder. -/
def scan_double_quoted_body : List Char → Option (List Char × List Char)
  | [] => none
  | c :: rest =>
    if c = '"' then some ([], rest)
    else if c = '\\' then
      match rest with
      | [] => none
      | e :: rest' =>
        if e = '"' then (scan_double_quoted_body rest').map (fun p => ('"' :: p.1, p.2))
        else if e = '\\' then (scan_double_quoted_body rest').map (fun p => ('\\' :: p.1, p.2))
        else none
    else if isLineTerminator c then none
    else (scan_double_quoted_body rest).map (fun p => (c :: p.1, p.2))

/-- Modelled from the spec: an ordinary double-quoted scalar — an
opening quote followed by the scalar body. -/
def scan_double_quoted (s : List Char) : Option (List Char × List Char) :=
  match s with
  | '"' :: rest => scan_double_quoted_body rest
  | _ => none

/-- The document fragment `key: text⏎rest` holding one mapping entry
whose value occupies the remainder of its line. -/
def mkEntryLine (key text rest : List Char) : List Char :=
  key ++ ':' :: ' ' :: (text ++ '\n' :: rest)

/-- Modelled from the spec: the value produced by the patched
`yaml_load` pipeline for a mapping entry `key: text`.  The reader sits
just after the entry's colon when the composer hook fires (the hook's
own skip-spaces loop encodes the same assumption); the hook patches
the buffer for the two known keys, and the repaired value is then
tokenized as an ordinary double-quoted scalar.  Entries the hook does
not patch keep the plain-scalar grammar, which is external and not
modelled here: for those this function returns `none`. -/
def load_entry_value (key text rest : List Char) : Option (List Char) :=
  let st0 : ReaderState := ⟨mkEntryLine key text rest, key.length + 1⟩
  let st := compose_node_reader st0 (some (Node.mapping [])) (some (Node.scalar key))
  match scan_double_quoted (st.buffer.drop st.pointer) with
  | some p => some p.1
  | none => none

/-! ## Pure value-level model of `make_bookmarks`

Python dictionaries and lists are modelled as immutable Lean values;
a raised `KeyError`/`TypeError`/`IndexError` is an `Except` error.
A Workspaces or tabs collection is either an insertion-ordered
mapping from integer index to record (YAML source) or a plain
sequence of records (JSON source). -/

/-- A raised Python exception, as far as `make_bookmarks` can raise
one. -/
inductive PyErr where
  | keyError (key : String)
  | typeError
  | indexError
deriving Repr, DecidableEq

/-- A tab record: dictionary with a `url` entry and an optional
`title` entry (`none` = key absent). -/
structure Tab where
  url : Option String
  title : Option String
deriving Repr, DecidableEq

/-- A workspace/tab collection in one of its two serialized shapes:
index-keyed insertion-ordered mapping (YAML) or plain sequence
(JSON). -/
inductive PyColl (α : Type) where
  | mapping (entries : List (Nat × α))
  | sequence (items : List α)
deriving Repr, DecidableEq

/-- A workspace record: dictionary with a `title` entry and an
optional `tabs` collection (`none` = key absent). -/
structure Workspace where
  title : Option String
  tabs : Option (PyColl Tab)
deriving Repr, DecidableEq

/-- An export tree: dictionary with the well-known `Workspaces`
collection. -/
structure ExportData where
  Workspaces : PyColl Workspace
deriving Repr, DecidableEq

/-- The filtering loop of `make_bookmarks` over a mapping-shaped
`Workspaces` collection.  `enumerate` over a Python dict yields its
keys, so `wvalue` is the integer key: when it equals the enumeration
index, `workspace = data['Workspaces'][wvalue]` looks the key up in
the dict (keys of a dict are unique, so this is the entry's own
record); otherwise `workspace` is bound to the integer key itself and
`workspace['title']` raises `TypeError`.  Returns the selected
records in order. -/
def filter_ws_mapping (workspaces : List String) :
    Nat → List (Nat × Workspace) → Except PyErr (List Workspace)
  | _, [] => .ok []
  | widx, (key, wvalue) :: rest =>
    if widx = key then
      match wvalue.title with
      | none => .error (.keyError "title")
      | some t =>
        (filter_ws_mapping workspaces (widx + 1) rest).map
          (fun selected => if workspaces.contains t then wvalue :: selected else selected)
    else
      .error .typeError

/-- The filtering loop over a sequence-shaped `Workspaces` collection.
`enumerate` yields the records themselves; `widx == wvalue` compares
an int with a dict and is always `False` in Python, so
`workspace = wvalue`. -/
def filter_ws_sequence (workspaces : List String) :
    List Workspace → Except PyErr (List Workspace)
  | [] => .ok []
  | wvalue :: rest =>
    match wvalue.title with
    | none => .error (.keyError "title")
    | some t =>
      (filter_ws_sequence workspaces rest).map
        (fun selected => if workspaces.contains t then wvalue :: selected else selected)

/-- The whole filtering pass: the records whose `title` is in the
filter list, in their original order. -/
def filter_workspaces (workspaces : List String) :
    PyColl Workspace → Except PyErr (List Workspace)
  | .mapping m => filter_ws_mapping workspaces 0 m
  | .sequence l => filter_ws_sequence workspaces l

/-- The tab body of the render loop: `url = tab['url']`,
`desc = tab.get('title', url)`, then the hyperlink line. -/
def render_tab (tab : Tab) : Except PyErr String :=
  match tab.url with
  | none => .error (.keyError "url")
  | some url =>
    .ok ("\t\t\t<DT><A HREF=\"" ++ url ++ "\">" ++ tab.title.getD url ++ "</a>")

/-- The tab loop over a mapping-shaped `tabs` collection; the shape
check mirrors the workspace loop (`tab = workspace['tabs'][tidx]` on
the index-keyed shape, `TypeError` on an index/key mismatch). -/
def render_tabs_mapping : Nat → List (Nat × Tab) → Except PyErr (List String)
  | _, [] => .ok []
  | tidx, (key, tvalue) :: rest =>
    if tidx = key then
      match render_tab tvalue with
      | .error e => .error e
      | .ok line => (render_tabs_mapping (tidx + 1) rest).map (fun lines => line :: lines)
    else
      .error .typeError

/-- The tab loop over a sequence-shaped `tabs` collection. -/
def render_tabs_sequence : List Tab → Except PyErr (List String)
  | [] => .ok []
  | tvalue :: rest =>
    match render_tab tvalue with
    | .error e => .error e
    | .ok line => (render_tabs_sequence rest).map (fun lines => line :: lines)

/-- The per-workspace body of the render loop: `title =
workspace['title']`, the group header and list opener, the tab lines
when `'tabs' in workspace`, and the group closers. -/
def render_workspace (workspace : Workspace) : Except PyErr (List String) :=
  match workspace.title with
  | none => .error (.keyError "title")
  | some title =>
    let tabsRes : Except PyErr (List String) :=
      match workspace.tabs with
      | none => .ok []
      | some (.mapping m) => render_tabs_mapping 0 m
      | some (.sequence l) => render_tabs_sequence l
    tabsRes.map (fun tabLines =>
      ("\t<DT><H3 FOLDED>" ++ title ++ "</H3>")
        :: "\t\t<DL><p>"
        :: (tabLines ++ ["\t\t</DL>", "\t</DT>"]))

/-- The workspace render loop over a mapping-shaped collection. -/
def render_ws_mapping : Nat → List (Nat × Workspace) → Except PyErr (List String)
  | _, [] => .ok []
  | widx, (key, wvalue) :: rest =>
    if widx = key then
      match render_workspace wvalue with
      | .error e => .error e
      | .ok lines => (render_ws_mapping (widx + 1) rest).map (fun more => lines ++ more)
    else
      .error .typeError

/-- The workspace render loop over a sequence-shaped collection. -/
def render_ws_sequence : List Workspace → Except PyErr (List String)
  | [] => .ok []
  | wvalue :: rest =>
    match render_workspace wvalue with
    | .error e => .error e
    | .ok lines => (render_ws_sequence rest).map (fun more => lines ++ more)

/-- All lines contributed by the workspace render loop. -/
def render_workspaces : PyColl Workspace → Except PyErr (List String)
  | .mapping m => render_ws_mapping 0 m
  | .sequence l => render_ws_sequence l

/-- The fixed two-line preamble plus the top-level list opener. -/
def preamble_lines : List String :=
  ["<!DOCTYPE NETSCAPE-Bookmark-file-1>",
   "<!<META HTTP-EQUIV=\"Content-Type\" CONTENT=\"text/html; charset=UTF-8\">",
   "<DL><p>"]

/-- `make_bookmarks(data, workspaces=None, wrapped=True)`: optionally
filter the workspaces (a truthy — nonempty — filter list replaces
`data` with a fresh index-keyed mapping of the selected records,
re-keyed `0..k-1`), then render the preamble, the optional wrapping
"Workona Export" group, one group per workspace, and the closers,
joined with newlines. -/
def make_bookmarks (data : ExportData) (workspaces : List String := [])
    (wrapped : Bool := true) : Except PyErr String :=
  let wrapper := "Workona Export"
  let dataRes : Except PyErr ExportData :=
    if workspaces.isEmpty then .ok data
    else
      (filter_workspaces workspaces data.Workspaces).map
        (fun selected => ⟨.mapping (List.enumFrom 0 selected)⟩)
  match dataRes with
  | .error e => .error e
  | .ok data =>
    match render_workspaces data.Workspaces with
    | .error e => .error e
    | .ok wsLines =>
      let output := preamble_lines
        ++ (if wrapped then ["<DT><H3 FOLDED>" ++ wrapper ++ "</H3>\n<DL>"] else [])
        ++ wsLines
        ++ (if wrapped then ["</DL></DT>"] else [])
        ++ ["</DL>"]
      .ok (String.intercalate "\n" output)

/-! ## Abstract record lists for relating the two collection shapes -/

/-- A workspace with its tabs as an abstract record list, not yet
committed to either collection shape. -/
structure AWorkspace where
  title : Option String
  tabs : Option (List Tab)
deriving Repr, DecidableEq

/-- Commit a workspace's tabs to the index-keyed mapping shape. -/
def wsAsMapping (w : AWorkspace) : Workspace :=
  ⟨w.title, w.tabs.map (fun l => .mapping (List.enumFrom 0 l))⟩

/-- Commit a workspace's tabs to the sequence shape. -/
def wsAsSequence (w : AWorkspace) : Workspace :=
  ⟨w.title, w.tabs.map .sequence⟩

/-- The export tree with every collection in the index-keyed mapping
shape (keys `0..n-1` in order). -/
def treeAsMapping (l : List AWorkspace) : ExportData :=
  ⟨.mapping (List.enumFrom 0 (l.map wsAsMapping))⟩

/-- The export tree with every collection in the sequence shape. -/
def treeAsSequence (l : List AWorkspace) : ExportData :=
  ⟨.sequence (l.map wsAsSequence)⟩

/-- The filtering pass at the abstract record level: the same
selection the loops of `filter_workspaces` perform, before the
records are committed to a collection shape (used to relate the two
shapes). -/
def filterA (names : List String) : List AWorkspace → Except PyErr (List AWorkspace)
  | [] => .ok []
  | w :: rest =>
    match w.title with
    | none => .error (.keyError "title")
    | some t =>
      (filterA names rest).map
        (fun selected => if names.contains t then w :: selected else selected)

/-- The workspaces the spec says a filter call must keep (§4.2):
exact, case-sensitive title matches, in their original order; an
empty filter keeps everything. -/
def spec_selected_workspaces (names : List String) (records : List Workspace) :
    List Workspace :=
  if names.isEmpty then records
  else
    records.filter (fun w =>
      match w.title with
      | some t => names.contains t
      | none => false)

/-! ## Store-passing model of `make_bookmarks`

Python dictionaries are mutable heap objects; `make_bookmarks`
receives a reference into the caller's object graph, and the claim
that it never mutates that graph is about the heap, not about values.
In this second model a dictionary lives in a store at an address, a
value is an immediate int/str/list or a reference to a dictionary,
and the function threads the store.  The only statements of the
source that write to the heap are `filtered = {'Workspaces': {}}`
(two allocations) and `filtered['Workspaces'][seq] =
copy(workspace)` (an allocation by `copy` plus an item assignment);
the render loop only reads, so it takes the store by value. -/

/-- A Python value as `make_bookmarks` handles one: an int, a string,
a list (never mutated by this code, so kept immediate), or a
reference to a dictionary in the store. -/
inductive HVal where
  | int (n : Nat)
  | str (s : String)
  | list (items : List HVal)
  | ref (addr : Nat)
deriving Repr

mutual

/-- Structural equality of modelled values; coincides with Python
`==` on the int and string keys this code compares. -/
def hvalBeq : HVal → HVal → Bool
  | .int a, .int b => a == b
  | .str a, .str b => a == b
  | .ref a, .ref b => a == b
  | .list a, .list b => hvalListBeq a b
  | _, _ => false

/-- Elementwise `hvalBeq` on lists. -/
def hvalListBeq : List HVal → List HVal → Bool
  | [], [] => true
  | x :: xs, y :: ys => hvalBeq x y && hvalListBeq xs ys
  | _, _ => false

end

instance : BEq HVal := ⟨hvalBeq⟩

/-- A dictionary body: insertion-ordered key/value entries (keys in
export data are ints and strings). -/
abbrev Dict := List (HVal × HVal)

/-- The store: allocated dictionaries and the next fresh address. -/
structure Store where
  heap : List (Nat × Dict)
  next : Nat
deriving Repr

/-- The dictionary at an address, if allocated. -/
def lookupAddr (σ : Store) (a : Nat) : Option Dict :=
  (σ.heap.find? (fun p => p.1 == a)).map Prod.snd

/-- Key lookup inside a dictionary body.  Python `==` on the int and
string keys occurring here coincides with structural equality. -/
def dictFind (d : Dict) (k : HVal) : Option HVal :=
  (d.find? (fun p => p.1 == k)).map Prod.snd

/-- The key as it appears in a `KeyError`. -/
def hvalKeyName : HVal → String
  | .str s => s
  | .int n => toString n
  | _ => "key"

/-- Subscription `v[k]`: dict key lookup through a reference
(`KeyError` when missing), list indexing by an int (`IndexError` out
of range, `TypeError` for a non-int subscript), `TypeError` on
non-subscriptable values.  A dangling reference cannot arise in
stores this model builds. -/
def getItem_st (σ : Store) (v k : HVal) : Except PyErr HVal :=
  match v with
  | .ref a =>
    match lookupAddr σ a with
    | some d =>
      match dictFind d k with
      | some x => .ok x
      | none => .error (.keyError (hvalKeyName k))
    | none => .error .typeError
  | .list items =>
    match k with
    | .int n =>
      match items.get? n with
      | some x => .ok x
      | none => .error .indexError
    | _ => .error .typeError
  | _ => .error .typeError

/-- Iteration, as `enumerate` consumes it: a dict yields its keys in
insertion order, a list its items, a string its characters; an int is
not iterable. -/
def iterVals (σ : Store) (v : HVal) : Except PyErr (List HVal) :=
  match v with
  | .ref a =>
    match lookupAddr σ a with
    | some d => .ok (d.map Prod.fst)
    | none => .error .typeError
  | .list items => .ok items
  | .str s => .ok (s.data.map (fun c => .str (String.mk [c])))
  | .int _ => .error .typeError

/-- Membership `x in v` for the uses in this code: key membership in
a dict, value membership in a list. -/
def pyContains_st (σ : Store) (v x : HVal) : Except PyErr Bool :=
  match v with
  | .ref a =>
    match lookupAddr σ a with
    | some d => .ok (d.find? (fun p => p.1 == x)).isSome
    | none => .error .typeError
  | .list items => .ok (items.contains x)
  | _ => .error .typeError

/-- Allocate a fresh dictionary, returning its address. -/
def alloc (σ : Store) (d : Dict) : Store × Nat :=
  ({ heap := (σ.next, d) :: σ.heap, next := σ.next + 1 }, σ.next)

/-- Item assignment inside a dictionary body: an existing key keeps
its position, a new key is appended (Python insertion order). -/
def setEntries : Dict → HVal → HVal → Dict
  | [], k, v => [(k, v)]
  | (k', v') :: rest, k, v =>
    if k' == k then (k', v) :: rest else (k', v') :: setEntries rest k v

/-- Item assignment `heap[a][k] = v`. -/
def setItem (σ : Store) (a : Nat) (k v : HVal) : Store :=
  { σ with
    heap := σ.heap.map (fun p => if p.1 == a then (p.1, setEntries p.2 k v) else p) }

/-- `copy.copy`: a shallow copy of a dictionary is a fresh
dictionary with the same entries; values without identity are
returned as they are. -/
def pyCopy (σ : Store) (v : HVal) : Store × HVal :=
  match v with
  | .ref a =>
    match lookupAddr σ a with
    | some d =>
      let p := alloc σ d
      (p.1, .ref p.2)
    | none => (σ, v)
  | _ => (σ, v)

/-- The `widx == wvalue` shape test: the enumeration counter is an
int, and Python `int == x` is by value on ints and `False` against
strings, lists and dicts. -/
def pyEqIntV (widx : Nat) (v : HVal) : Bool :=
  match v with
  | .int m => widx == m
  | _ => false

/-- `workspace['title'] in workspaces`: the filter entries are
strings, so only a string title can match. -/
def titleInNames (t : HVal) (names : List String) : Bool :=
  match t with
  | .str s => names.contains s
  | _ => false

/-- `str(v)` as the render f-strings use it.  Container reprs are
abbreviated; no theorem depends on them. -/
def pyStr : HVal → String
  | .int n => toString n
  | .str s => s
  | .list _ => "[...]"
  | .ref _ => "<dict>"

/-- The filtering loop of `make_bookmarks`, store-passing: extract
the record (dual-shape test), read its title, and when selected
append a shallow copy to the fresh inner dictionary under the next
sequential key. -/
def filter_loop_st (names : List String) (collV : HVal) (inner : Nat) :
    Store → Nat → Nat → List HVal → Store × Except PyErr Unit
  | σ, _, _, [] => (σ, .ok ())
  | σ, widx, seq, wvalue :: rest =>
    let wsE := if pyEqIntV widx wvalue then getItem_st σ collV wvalue else .ok wvalue
    match wsE with
    | .error e => (σ, .error e)
    | .ok workspace =>
      match getItem_st σ workspace (.str "title") with
      | .error e => (σ, .error e)
      | .ok t =>
        if titleInNames t names then
          let p := pyCopy σ workspace
          let σ' := setItem p.1 inner (.int seq) p.2
          filter_loop_st names collV inner σ' (widx + 1) (seq + 1) rest
        else
          filter_loop_st names collV inner σ (widx + 1) seq rest

/-- `tab.get('title', url)`: defaulting key lookup; only reached on
dictionary tabs (a non-dict already failed the `tab['url']`
subscription). -/
def dictGet (σ : Store) (v k dflt : HVal) : Except PyErr HVal :=
  match v with
  | .ref a =>
    match lookupAddr σ a with
    | some d => .ok ((dictFind d k).getD dflt)
    | none => .error .typeError
  | _ => .error .typeError

/-- The tab body, store-passing: `url = tab['url']`,
`desc = tab.get('title', url)`, the hyperlink line. -/
def render_tab_st (σ : Store) (tab : HVal) : Except PyErr String :=
  match getItem_st σ tab (.str "url") with
  | .error e => .error e
  | .ok url =>
    match dictGet σ tab (.str "title") url with
    | .error e => .error e
    | .ok desc =>
      .ok ("\t\t\t<DT><A HREF=\"" ++ pyStr url ++ "\">" ++ pyStr desc ++ "</a>")

/-- The tab loop, store-passing (`tab = workspace['tabs'][tidx]` on
the index-keyed shape; reads have no store effect, so the collection
value is passed along). -/
def render_tabs_st (σ : Store) (tabsV : HVal) :
    Nat → List HVal → Except PyErr (List String)
  | _, [] => .ok []
  | tidx, tvalue :: rest =>
    let tabE := if pyEqIntV tidx tvalue then getItem_st σ tabsV (.int tidx) else .ok tvalue
    match tabE with
    | .error e => .error e
    | .ok tab =>
      match render_tab_st σ tab with
      | .error e => .error e
      | .ok line =>
        (render_tabs_st σ tabsV (tidx + 1) rest).map (fun lines => line :: lines)

/-- The workspace render loop, store-passing. -/
def render_ws_st (σ : Store) (collV : HVal) :
    Nat → List HVal → Except PyErr (List String)
  | _, [] => .ok []
  | widx, wvalue :: rest =>
    let wsE := if pyEqIntV widx wvalue then getItem_st σ collV wvalue else .ok wvalue
    match wsE with
    | .error e => .error e
    | .ok workspace =>
      match getItem_st σ workspace (.str "title") with
      | .error e => .error e
      | .ok title =>
        match pyContains_st σ workspace (.str "tabs") with
        | .error e => .error e
        | .ok hasTabs =>
          let tabsLinesE : Except PyErr (List String) :=
            if hasTabs then
              match getItem_st σ workspace (.str "tabs") with
              | .error e => .error e
              | .ok tabsV =>
                match iterVals σ tabsV with
                | .error e => .error e
                | .ok items => render_tabs_st σ tabsV 0 items
            else .ok []
          match tabsLinesE with
          | .error e => .error e
          | .ok tabLines =>
            (render_ws_st σ collV (widx + 1) rest).map
              (fun more =>
                ("\t<DT><H3 FOLDED>" ++ pyStr title ++ "</H3>")
                  :: "\t\t<DL><p>"
                  :: (tabLines ++ ["\t\t</DL>", "\t</DT>"]) ++ more)

/-- The output assembly of `make_bookmarks` from the (possibly
filtered) tree, store-passing; performs no store writes. -/
def render_doc_st (σ : Store) (dataV : HVal) (wrapped : Bool) : Except PyErr String :=
  match getItem_st σ dataV (.str "Workspaces") with
  | .error e => .error e
  | .ok collV =>
    match iterVals σ collV with
    | .error e => .error e
    | .ok items =>
      match render_ws_st σ collV 0 items with
      | .error e => .error e
      | .ok wsLines =>
        let output := preamble_lines
          ++ (if wrapped then ["<DT><H3 FOLDED>Workona Export</H3>\n<DL>"] else [])
          ++ wsLines
          ++ (if wrapped then ["</DL></DT>"] else [])
          ++ ["</DL>"]
        .ok (String.intercalate "\n" output)

/-- `make_bookmarks`, store-passing: with a truthy filter, allocate
`filtered = {'Workspaces': {}}`, run the filtering loop, and render
from the fresh tree; otherwise render the caller's tree directly.
Returns the final store and the result (or the raised exception). -/
def make_bookmarks_st (σ : Store) (dataV : HVal) (names : List String)
    (wrapped : Bool) : Store × Except PyErr String :=
  if names.isEmpty then
    (σ, render_doc_st σ dataV wrapped)
  else
    let pInner := alloc σ []
    let pOuter := alloc pInner.1 [(.str "Workspaces", .ref pInner.2)]
    let σ2 := pOuter.1
    match getItem_st σ2 dataV (.str "Workspaces") with
    | .error e => (σ2, .error e)
    | .ok collV =>
      match iterVals σ2 collV with
      | .error e => (σ2, .error e)
      | .ok items =>
        match filter_loop_st names collV pInner.2 σ2 0 0 items with
        | (σ3, .error e) => (σ3, .error e)
        | (σ3, .ok _) => (σ3, render_doc_st σ3 (.ref pOuter.2) wrapped)

/-! # Theorems -/

/-! ## The patch loops, related back to the reader's peek -/

theorem peek_eq_headD_drop (buffer : List Char) (pos : Nat) :
    peek buffer pos 0 = (buffer.drop pos).headD '\x00' := by
  unfold peek
  rw [List.getD_eq_getElem?_getD, ← List.getElem?_drop]
  cases buffer.drop pos <;> simp

theorem skip_spaces_peek (buffer : List Char) (pointer : Nat) :
    skip_spaces buffer pointer =
      if peek buffer pointer 0 = ' ' then skip_spaces buffer (pointer + 1) else pointer := by
  rw [peek_eq_headD_drop]
  unfold skip_spaces
  rw [show buffer.drop (pointer + 1) = (buffer.drop pointer).tail from (List.tail_drop buffer pointer).symm]
  cases buffer.drop pointer with
  | nil => simp [skip_count]
  | cons c rest =>
    by_cases hc : c = ' '
    · simp [skip_count, hc]
      omega
    · simp [skip_count, hc]

theorem scan_from_peek (buffer : List Char) (pos : Nat) :
    scan_from buffer pos =
      if isLineTerminator (peek buffer pos 0) then []
      else peek buffer pos 0 :: scan_from buffer (pos + 1) := by
  rw [peek_eq_headD_drop]
  unfold scan_from
  rw [show buffer.drop (pos + 1) = (buffer.drop pos).tail from (List.tail_drop buffer pos).symm]
  cases buffer.drop pos with
  | nil => simp [scan_line, isLineTerminator]
  | cons c rest =>
    by_cases hc : isLineTerminator c <;> simp [scan_line, hc]

/-! ## Characterizing one run of the patch -/

theorem scan_line_append (s t : List Char)
    (hs : ∀ c ∈ s, isLineTerminator c = false)
    (ht : isLineTerminator (t.headD '\x00') = true) :
    scan_line (s ++ t) = s := by
  induction s with
  | nil =>
    simp only [List.nil_append]
    cases t with
    | nil => rfl
    | cons c r =>
      simp only [List.headD] at ht
      simp [scan_line, ht]
  | cons c s' ih =>
    have hc := hs c (by simp)
    simp [scan_line, hc, ih (fun x hx => hs x (by simp [hx]))]

theorem skip_count_replicate (sp : Nat) (u : List Char) (hu : u.head? ≠ some ' ') :
    skip_count (List.replicate sp ' ' ++ u) = sp := by
  induction sp with
  | zero =>
    simp only [List.replicate, List.nil_append]
    cases u with
    | nil => rfl
    | cons c r =>
      have hc : c ≠ ' ' := fun hc => hu (by simp [hc])
      simp [skip_count, hc]
  | succ n ih =>
    simp [List.replicate_succ, skip_count, ih]

theorem escape_quotes_eq_self (s : List Char) (h : ¬ '"' ∈ s) : escape_quotes s = s := by
  induction s with
  | nil => rfl
  | cons c r ih =>
    have hc : c ≠ '"' := fun hc => h (by simp [hc])
    simp [escape_quotes, hc, ih (fun hr => h (by simp [hr]))]

theorem escape_branch (s : List Char) :
    (if s.contains '"' then escape_quotes s else s) = escape_quotes s := by
  by_cases h : '"' ∈ s
  · simp [List.contains, h]
  · simp [List.contains, h, escape_quotes_eq_self s h]

/-- The patch on a buffer whose unconsumed part is spaces, a
single-line scalar `s`, a line terminator `c` and the rest of the
document: the scanned span is replaced by `s` quoted and
quote-escaped, everything before the post-skip read position and
after the span is untouched, and the pointer ends just past the
skipped spaces. -/
theorem patch_buffer_spec (A : List Char) (sp : Nat) (s : List Char) (c : Char) (t : List Char)
    (hs : ∀ x ∈ s, isLineTerminator x = false)
    (hc : isLineTerminator c = true)
    (hhead : s.head? ≠ some ' ')
    (hne : s ≠ [])
    (hint : pyIntParses s = false) :
    patch_buffer_for_unquoted_scalar
        ⟨A ++ (List.replicate sp ' ' ++ (s ++ c :: t)), A.length⟩
      = ⟨A ++ (List.replicate sp ' ' ++ ('"' :: (escape_quotes s ++ '"' :: c :: t))),
         A.length + sp⟩ := by
  have hu : (s ++ c :: t).head? ≠ some ' ' := by
    cases s with
    | nil => exact absurd rfl hne
    | cons x s' => simpa using hhead
  have hptr : skip_spaces (A ++ (List.replicate sp ' ' ++ (s ++ c :: t))) A.length
      = A.length + sp := by
    unfold skip_spaces
    rw [List.drop_left, skip_count_replicate sp _ hu]
  have hassoc : A ++ (List.replicate sp ' ' ++ (s ++ c :: t))
      = (A ++ List.replicate sp ' ') ++ (s ++ c :: t) := by
    simp [List.append_assoc]
  have hlensp : (A ++ List.replicate sp ' ').length = A.length + sp := by simp
  have hscan : scan_from (A ++ (List.replicate sp ' ' ++ (s ++ c :: t))) (A.length + sp) = s := by
    unfold scan_from
    rw [hassoc, ← hlensp, List.drop_left]
    exact scan_line_append s (c :: t) hs (by simpa using hc)
  have htake : (A ++ (List.replicate sp ' ' ++ (s ++ c :: t))).take (A.length + sp)
      = A ++ List.replicate sp ' ' := by
    rw [hassoc, ← hlensp, List.take_left]
  have hdrop : (A ++ (List.replicate sp ' ' ++ (s ++ c :: t))).drop (A.length + sp + s.length)
      = c :: t := by
    have hassoc2 : A ++ (List.replicate sp ' ' ++ (s ++ c :: t))
        = ((A ++ List.replicate sp ' ') ++ s) ++ (c :: t) := by
      simp [List.append_assoc]
    have hlen2 : ((A ++ List.replicate sp ' ') ++ s).length = A.length + sp + s.length := by
      simp only [List.length_append, List.length_replicate]
    rw [hassoc2, ← hlen2, List.drop_left]
  unfold patch_buffer_for_unquoted_scalar
  simp only [hptr, hscan]
  rw [if_neg (by simpa using hne), if_neg (by simp [hint])]
  simp only [escape_branch, htake, hdrop]
  simp [List.append_assoc]

/-- Claim C2: on a non-empty, non-integer scan, the patch replaces
exactly the span from the post-skip read position through the
original scan length with the quote-escaped text wrapped in double
quotes; the scan stops at the first line-terminator-class character
and the buffer before the read position and after the span is
unchanged. -/
theorem claim_C2 (A : List Char) (sp : Nat) (s : List Char) (c : Char) (t : List Char)
    (hs : ∀ x ∈ s, isLineTerminator x = false)
    (hc : isLineTerminator c = true)
    (hhead : s.head? ≠ some ' ')
    (hne : s ≠ [])
    (hint : pyIntParses s = false) :
    patch_buffer_for_unquoted_scalar
        ⟨A ++ (List.replicate sp ' ' ++ (s ++ c :: t)), A.length⟩
      = ⟨A ++ (List.replicate sp ' ' ++ ('"' :: (escape_quotes s ++ '"' :: c :: t))),
         A.length + sp⟩ :=
  patch_buffer_spec A sp s c t hs hc hhead hne hint

theorem claim_C2_witness :
    patch_buffer_for_unquoted_scalar
        ⟨"title:".data ++ (List.replicate 1 ' ' ++ ("a: b".data ++ '\n' :: "x: 1\n".data)),
         ("title:".data).length⟩
      = ⟨"title:".data
           ++ (List.replicate 1 ' '
             ++ ('"' :: (escape_quotes "a: b".data ++ '"' :: '\n' :: "x: 1\n".data))),
         ("title:".data).length + 1⟩ :=
  claim_C2 ("title:".data) 1 ("a: b".data) '\n' ("x: 1\n".data)
    (by decide) (by decide) (by decide) (by decide) (by decide)

/-- Claim C6: a blank or integer-parsing scan leaves the buffer
untouched. -/
theorem claim_C6 (st : ReaderState)
    (h : scan_from st.buffer (skip_spaces st.buffer st.pointer) = []
       ∨ pyIntParses (scan_from st.buffer (skip_spaces st.buffer st.pointer)) = true) :
    (patch_buffer_for_unquoted_scalar st).buffer = st.buffer := by
  unfold patch_buffer_for_unquoted_scalar
  rcases h with h | h
  · simp [h]
  · by_cases hlen : (scan_from st.buffer (skip_spaces st.buffer st.pointer)).length = 0
    · simp [hlen]
    · simp [hlen, h]

theorem claim_C6_witness :
    (patch_buffer_for_unquoted_scalar ⟨"n: 42\n".data, 2⟩).buffer = "n: 42\n".data :=
  claim_C6 ⟨"n: 42\n".data, 2⟩ (Or.inr (by decide))

/-- Claim C4: the composer hook patches the buffer exactly when the
parent is a mapping node and the index is a scalar node whose value
is `title` or `description`; in every other case the reader state is
left unmodified. -/
theorem claim_C4 (st : ReaderState) (parent index : Option Node) :
    (compose_node_should_patch parent index = true
      ↔ ((∃ pairs, parent = some (Node.mapping pairs))
          ∧ ∃ v, index = some (Node.scalar v)
              ∧ (v = "title".data ∨ v = "description".data)))
    ∧ (compose_node_should_patch parent index = false →
        compose_node_reader st parent index = st)
    ∧ (compose_node_should_patch parent index = true →
        compose_node_reader st parent index = patch_buffer_for_unquoted_scalar st) := by
  refine ⟨?_, ?_, ?_⟩
  · constructor
    · intro h
      rcases parent with _ | p <;> rcases index with _ | i <;>
        simp [compose_node_should_patch] at h
      rcases p with v | pairs | items <;> rcases i with v' | pairs' | items' <;>
        simp [compose_node_should_patch] at h
      refine ⟨⟨pairs, rfl⟩, v', rfl, ?_⟩
      simpa [UNQUOTED_NODE_KEYS, List.contains] using h
    · rintro ⟨⟨pairs, rfl⟩, v, rfl, hv⟩
      rcases hv with rfl | rfl <;> simp [compose_node_should_patch, UNQUOTED_NODE_KEYS]
  · intro h
    simp [compose_node_reader, h]
  · intro h
    simp [compose_node_reader, h]

theorem claim_C4_witness :
    (compose_node_should_patch (some (Node.mapping [])) (some (Node.scalar "title".data)) = true
      ↔ ((∃ pairs, (some (Node.mapping []) : Option Node) = some (Node.mapping pairs))
          ∧ ∃ v, (some (Node.scalar "title".data) : Option Node) = some (Node.scalar v)
              ∧ (v = "title".data ∨ v = "description".data)))
    ∧ (compose_node_should_patch (some (Node.mapping [])) (some (Node.scalar "title".data)) = false →
        compose_node_reader ⟨[], 0⟩ (some (Node.mapping [])) (some (Node.scalar "title".data)) = ⟨[], 0⟩)
    ∧ (compose_node_should_patch (some (Node.mapping [])) (some (Node.scalar "title".data)) = true →
        compose_node_reader ⟨[], 0⟩ (some (Node.mapping [])) (some (Node.scalar "title".data))
          = patch_buffer_for_unquoted_scalar ⟨[], 0⟩) :=
  claim_C4 ⟨[], 0⟩ (some (Node.mapping [])) (some (Node.scalar "title".data))

/-! ## Integer-parse facts -/

theorem mem_dropWhile_of_mem {p : Char → Bool} {x : Char} (hx : p x = false) :
    ∀ l : List Char, x ∈ l → x ∈ l.dropWhile p := by
  intro l
  induction l with
  | nil => intro h; cases h
  | cons c r ih =>
    intro hl
    rw [List.dropWhile_cons]
    by_cases hc : p c = true
    · simp only [hc, if_true]
      rcases List.mem_cons.1 hl with rfl | hr
      · rw [hx] at hc; cases hc
      · exact ih hr
    · simp only [hc, if_false]
      exact hl

theorem pyDigitsRest_eq_false_of_mem (x : Char) (hd : x.isDigit = false) (hu : x ≠ '_') :
    ∀ l : List Char, x ∈ l → pyDigitsRest l = false := by
  have key : ∀ n, ∀ l : List Char, l.length ≤ n → x ∈ l → pyDigitsRest l = false := by
    intro n
    induction n with
    | zero =>
      intro l hlen hx
      cases l with
      | nil => cases hx
      | cons c r => simp at hlen
    | succ n ih =>
      intro l hlen hx
      cases l with
      | nil => cases hx
      | cons c r =>
        by_cases hc : c = '_'
        · subst hc
          cases r with
          | nil =>
            rcases List.mem_cons.1 hx with rfl | h
            · exact absurd rfl hu
            · cases h
          | cons d r' =>
            rcases List.mem_cons.1 hx with rfl | hx'
            · exact absurd rfl hu
            · rcases List.mem_cons.1 hx' with rfl | hx''
              · rw [pyDigitsRest.eq_def]
                simp [hd]
              · have hr' := ih r' (by simp at hlen; omega) hx''
                rw [pyDigitsRest.eq_def]
                simp [hr']
        · rcases List.mem_cons.1 hx with rfl | hx'
          · rw [pyDigitsRest.eq_def]
            simp [hc, hd]
          · have hr := ih r (by simp at hlen; omega) hx'
            rw [pyDigitsRest.eq_def]
            simp [hc, hr]
  exact fun l => key l.length l le_rfl

theorem pyDigits_eq_false_of_mem (x : Char) (hd : x.isDigit = false) (hu : x ≠ '_')
    (l : List Char) (hx : x ∈ l) : pyDigits l = false := by
  cases l with
  | nil => cases hx
  | cons c r =>
    rcases List.mem_cons.1 hx with rfl | hx'
    · simp [pyDigits, hd]
    · simp [pyDigits, pyDigitsRest_eq_false_of_mem x hd hu r hx']

theorem pyIntParses_eq_false_of_mem (s : List Char) (x : Char)
    (hsp : isPySpace x = false) (hd : x.isDigit = false) (hu : x ≠ '_')
    (hplus : x ≠ '+') (hminus : x ≠ '-') (hx : x ∈ s) :
    pyIntParses s = false := by
  unfold pyIntParses
  apply pyDigits_eq_false_of_mem x hd hu
  have h3 : x ∈ pyStripped s := by
    unfold pyStripped
    exact List.mem_reverse.2
      (mem_dropWhile_of_mem hsp _ (List.mem_reverse.2 (mem_dropWhile_of_mem hsp s hx)))
  unfold pySignStripped
  cases ht : pyStripped s with
  | nil => rw [ht] at h3; cases h3
  | cons c r =>
    rw [ht] at h3
    show x ∈ if isSign c = true then r else c :: r
    by_cases hs : isSign c = true
    · rw [if_pos hs]
      rcases List.mem_cons.1 h3 with rfl | h
      · simp only [isSign, Bool.or_eq_true, decide_eq_true_eq] at hs
        rcases hs with h' | h'
        · exact absurd h' hplus
        · exact absurd h' hminus
      · exact h
    · rw [if_neg hs]
      exact h3

/-! ## The repaired tokenization path round-trips -/

theorem scan_double_quoted_body_escape (s : List Char) (r : List Char)
    (hbs : ¬ '\\' ∈ s) (hterm : ∀ c ∈ s, isLineTerminator c = false) :
    scan_double_quoted_body (escape_quotes s ++ '"' :: r) = some (s, r) := by
  induction s with
  | nil =>
    simp only [escape_quotes, List.nil_append]
    rw [scan_double_quoted_body.eq_def]
    simp
  | cons c s' ih =>
    have hc_bs : c ≠ '\\' := fun h => hbs (by simp [h])
    have hterm_c : isLineTerminator c = false := hterm c (by simp)
    have ih' := ih (fun h => hbs (by simp [h])) (fun x hx => hterm x (by simp [hx]))
    by_cases hc : c = '"'
    · subst hc
      simp only [escape_quotes, if_pos rfl, List.cons_append]
      rw [scan_double_quoted_body.eq_def]
      simp [ih']
    · simp only [escape_quotes, if_neg hc, List.cons_append]
      rw [scan_double_quoted_body.eq_def]
      simp [hc, hc_bs, hterm_c, ih']

/-- The patched pipeline on an entry for one of the two known keys:
a single-line, backslash-free, non-blank, non-integer value is
patched and then tokenizes back to itself. -/
theorem load_entry_value_eq (key text rest : List Char)
    (hkey : UNQUOTED_NODE_KEYS.contains key = true)
    (hterm : ∀ c ∈ text, isLineTerminator c = false)
    (hbs : ¬ '\\' ∈ text)
    (hhead : text.head? ≠ some ' ')
    (hne : text ≠ [])
    (hint : pyIntParses text = false) :
    load_entry_value key text rest = some text := by
  have hcond : compose_node_should_patch (some (Node.mapping [])) (some (Node.scalar key)) = true :=
    hkey
  have hbuf : (⟨mkEntryLine key text rest, key.length + 1⟩ : ReaderState)
      = ⟨(key ++ [':']) ++ (List.replicate 1 ' ' ++ (text ++ '\n' :: rest)),
         (key ++ [':']).length⟩ := by
    simp [mkEntryLine, List.append_assoc, List.replicate]
  have hcomp : compose_node_reader ⟨mkEntryLine key text rest, key.length + 1⟩
      (some (Node.mapping [])) (some (Node.scalar key))
      = ⟨(key ++ [':'])
           ++ (List.replicate 1 ' ' ++ ('"' :: (escape_quotes text ++ '"' :: '\n' :: rest))),
         (key ++ [':']).length + 1⟩ := by
    unfold compose_node_reader
    rw [if_pos hcond, hbuf,
      patch_buffer_spec (key ++ [':']) 1 text '\n' rest hterm (by decide) hhead hne hint]
  have hdrop : ((key ++ [':'])
        ++ (List.replicate 1 ' ' ++ ('"' :: (escape_quotes text ++ '"' :: '\n' :: rest)))).drop
        ((key ++ [':']).length + 1)
      = '"' :: (escape_quotes text ++ '"' :: '\n' :: rest) := by
    have hsplit : (key ++ [':'])
          ++ (List.replicate 1 ' ' ++ ('"' :: (escape_quotes text ++ '"' :: '\n' :: rest)))
        = ((key ++ [':']) ++ [' ']) ++ ('"' :: (escape_quotes text ++ '"' :: '\n' :: rest)) := by
      simp [List.append_assoc, List.replicate]
    have hlen : ((key ++ [':']) ++ [' ']).length = (key ++ [':']).length + 1 := by simp
    rw [hsplit, ← hlen, List.drop_left]
  simp only [load_entry_value, hcomp, hdrop]
  rw [scan_double_quoted.eq_def]
  simp [scan_double_quoted_body_escape text ('\n' :: rest) hbs hterm]

/-- Claim C1 (amended): a `title`/`description` entry whose value is
single-line text containing a colon-space and no backslash
deserializes through the patched pipeline to the literal text, colon
included. -/
theorem claim_C1 (key text rest : List Char)
    (hkey : key = "title".data ∨ key = "description".data)
    (hcolon : List.IsInfix [':', ' '] text)
    (hterm : ∀ c ∈ text, isLineTerminator c = false)
    (hhead : text.head? ≠ some ' ')
    (hbs : ¬ '\\' ∈ text) :
    load_entry_value key text rest = some text := by
  have hmem : ':' ∈ text := hcolon.sublist.subset (by simp)
  have hne : text ≠ [] := by
    intro h
    rw [h] at hmem
    cases hmem
  have hint : pyIntParses text = false :=
    pyIntParses_eq_false_of_mem text ':' (by decide) (by decide) (by decide) (by decide)
      (by decide) hmem
  have hkey' : UNQUOTED_NODE_KEYS.contains key = true := by
    rcases hkey with rfl | rfl <;> decide
  exact load_entry_value_eq key text rest hkey' hterm hbs hhead hne hint

theorem claim_C1_witness :
    load_entry_value ("title".data) ("a: b".data) ("x: 1\n".data) = some ("a: b".data) :=
  claim_C1 ("title".data) ("a: b".data) ("x: 1\n".data) (Or.inl rfl)
    ⟨['a'], ['b'], by decide⟩ (by decide) (by decide) (by decide)

/-- Claim C1 counterexample: the unamended claim fails on a value
that contains a colon-space and also a backslash — the patch escapes
only double quotes, so the backslash reaches the quoted-scalar
grammar as an escape introducer and deserialization does not yield
the literal text (it fails outright). -/
theorem claim_C1_counterexample :
    List.IsInfix [':', ' '] ("a: \\q".data)
    ∧ (∀ c ∈ ("a: \\q".data), isLineTerminator c = false)
    ∧ load_entry_value ("title".data) ("a: \\q".data) [] = none
    ∧ ¬ load_entry_value ("title".data) ("a: \\q".data) [] = some ("a: \\q".data) :=
  ⟨⟨['a'], ['\\', 'q'], by decide⟩, by decide, by decide, by decide⟩

/-- Claim C5 (amended): a `title`/`description` value that is
single-line, contains a double quote and no backslash decodes
through the full patched pipeline to the original literal text,
literal quote included, with no escape sequence left behind. -/
theorem claim_C5 (key text rest : List Char)
    (hkey : key = "title".data ∨ key = "description".data)
    (hquote : '"' ∈ text)
    (hterm : ∀ c ∈ text, isLineTerminator c = false)
    (hhead : text.head? ≠ some ' ')
    (hbs : ¬ '\\' ∈ text) :
    load_entry_value key text rest = some text := by
  have hne : text ≠ [] := by
    intro h
    rw [h] at hquote
    cases hquote
  have hint : pyIntParses text = false :=
    pyIntParses_eq_false_of_mem text '"' (by decide) (by decide) (by decide) (by decide)
      (by decide) hquote
  have hkey' : UNQUOTED_NODE_KEYS.contains key = true := by
    rcases hkey with rfl | rfl <;> decide
  exact load_entry_value_eq key text rest hkey' hterm hbs hhead hne hint

theorem claim_C5_witness :
    load_entry_value ("title".data) ("say \"hi\" now".data) [] = some ("say \"hi\" now".data) :=
  claim_C5 ("title".data) ("say \"hi\" now".data) [] (Or.inl rfl)
    (by decide) (by decide) (by decide) (by decide)

/-- Claim C5 counterexample: the unamended claim fails on a value
that contains a double quote and also a backslash — the escaped
buffer ends in a backslash-quote pair that consumes the closing
quote, and the pipeline fails instead of yielding the literal
text. -/
theorem claim_C5_counterexample :
    '"' ∈ ("\"\\".data)
    ∧ (∀ c ∈ ("\"\\".data), isLineTerminator c = false)
    ∧ pyIntParses ("\"\\".data) = false
    ∧ load_entry_value ("title".data) ("\"\\".data) [] = none
    ∧ ¬ load_entry_value ("title".data) ("\"\\".data) [] = some ("\"\\".data) :=
  ⟨by decide, by decide, by decide, by decide, by decide⟩

/-! ## The two collection shapes are processed identically -/

theorem render_tabs_mapping_enumFrom :
    ∀ (tl : List Tab) (n : Nat),
      render_tabs_mapping n (List.enumFrom n tl) = render_tabs_sequence tl := by
  intro tl
  induction tl with
  | nil => intro n; rfl
  | cons tb tl' ih =>
    intro n
    simp only [List.enumFrom_cons, render_tabs_mapping, render_tabs_sequence, if_pos rfl]
    cases h : render_tab tb <;> simp [h, ih]

theorem render_workspace_shape (w : AWorkspace) :
    render_workspace (wsAsMapping w) = render_workspace (wsAsSequence w) := by
  unfold render_workspace wsAsMapping wsAsSequence
  cases w.title with
  | none => rfl
  | some title =>
    cases w.tabs with
    | none => rfl
    | some tl => simp [render_tabs_mapping_enumFrom tl 0]

theorem render_ws_mapping_enumFrom :
    ∀ (ws : List Workspace) (n : Nat),
      render_ws_mapping n (List.enumFrom n ws) = render_ws_sequence ws := by
  intro ws
  induction ws with
  | nil => intro n; rfl
  | cons w ws' ih =>
    intro n
    simp only [List.enumFrom_cons, render_ws_mapping, render_ws_sequence, if_pos rfl]
    cases h : render_workspace w <;> simp [h, ih]

theorem render_ws_sequence_map_shape (l : List AWorkspace) :
    render_ws_sequence (l.map wsAsMapping) = render_ws_sequence (l.map wsAsSequence) := by
  induction l with
  | nil => rfl
  | cons w l' ih =>
    simp only [List.map_cons, render_ws_sequence]
    rw [render_workspace_shape w]
    cases h : render_workspace (wsAsSequence w) <;> simp [h, ih]

theorem filter_ws_mapping_enumFrom (names : List String) :
    ∀ (ws : List Workspace) (n : Nat),
      filter_ws_mapping names n (List.enumFrom n ws) = filter_ws_sequence names ws := by
  intro ws
  induction ws with
  | nil => intro n; rfl
  | cons w ws' ih =>
    intro n
    simp only [List.enumFrom_cons, filter_ws_mapping, filter_ws_sequence, if_pos rfl]
    cases ht : w.title <;> simp [ht, ih]

theorem filter_ws_sequence_map (names : List String) (f : AWorkspace → Workspace)
    (hf : ∀ w, (f w).title = w.title) :
    ∀ l : List AWorkspace,
      filter_ws_sequence names (l.map f) = (filterA names l).map (List.map f) := by
  intro l
  induction l with
  | nil => rfl
  | cons w l' ih =>
    simp only [List.map_cons, filter_ws_sequence, filterA, hf w]
    cases hti : w.title with
    | none => rfl
    | some t =>
      cases h : filterA names l' with
      | error e => simp [ih, h, Except.map]
      | ok sel => simp [ih, h, Except.map, apply_ite (List.map f)]

/-- The shape-equivalence at the whole-function level: trees with the
same logical content in the index-keyed and the sequence
serialization produce the same `make_bookmarks` result for every
filter and wrapping flag. -/
theorem make_bookmarks_shape (l : List AWorkspace) (names : List String) (wrapped : Bool) :
    make_bookmarks (treeAsMapping l) names wrapped
      = make_bookmarks (treeAsSequence l) names wrapped := by
  unfold make_bookmarks treeAsMapping treeAsSequence
  by_cases hn : names.isEmpty
  · simp only [hn, if_true, render_workspaces,
      render_ws_mapping_enumFrom (l.map wsAsMapping) 0, render_ws_sequence_map_shape l]
  · simp only [hn, filter_workspaces,
      filter_ws_mapping_enumFrom names (l.map wsAsMapping) 0,
      filter_ws_sequence_map names wsAsMapping (fun _ => rfl) l,
      filter_ws_sequence_map names wsAsSequence (fun _ => rfl) l]
    cases h : filterA names l with
    | error e => simp [Except.map]
    | ok sel =>
      simp [Except.map, render_workspaces, render_ws_mapping_enumFrom,
        render_ws_sequence_map_shape sel]

/-- Claim C3: export trees of identical logical content — one with
index-keyed mappings keyed `0..n-1`, one with plain sequences —
give byte-identical `make_bookmarks` output for the same filter and
wrapping flag. -/
theorem claim_C3 (l : List AWorkspace) (names : List String) (wrapped : Bool) :
    make_bookmarks (treeAsMapping l) names wrapped
      = make_bookmarks (treeAsSequence l) names wrapped :=
  make_bookmarks_shape l names wrapped

/-! ## Filtering -/

theorem filter_ws_sequence_all_titles (names : List String) :
    ∀ records : List Workspace, (∀ w ∈ records, w.title ≠ none) →
      filter_ws_sequence names records
        = .ok (records.filter (fun w =>
            match w.title with
            | some t => names.contains t
            | none => false)) := by
  intro records
  induction records with
  | nil => intro _; rfl
  | cons w rest ih =>
    intro ht
    have hw := ht w (by simp)
    cases hti : w.title with
    | none => exact absurd hti hw
    | some t =>
      have ih' := ih (fun x hx => ht x (by simp [hx]))
      by_cases hsel : names.contains t <;>
        simp [filter_ws_sequence, hti, ih', Except.map, List.filter_cons, hsel]

/-- Claim C7: a non-empty filter keeps exactly the workspaces whose
title is string-equal to a filter entry, in their original order,
re-keyed `0..k-1`; rendering the filtered tree equals rendering the
spec-selected records directly, and an empty filter keeps
everything. -/
theorem claim_C7 (records : List Workspace) (names : List String) (wrapped : Bool)
    (data : ExportData)
    (hdata : data.Workspaces = .sequence records
           ∨ data.Workspaces = .mapping (List.enumFrom 0 records))
    (ht : ∀ w ∈ records, w.title ≠ none) :
    filter_workspaces names data.Workspaces
        = .ok (records.filter (fun w =>
            match w.title with
            | some t => names.contains t
            | none => false))
    ∧ make_bookmarks data names wrapped
        = make_bookmarks ⟨.sequence (spec_selected_workspaces names records)⟩ [] wrapped := by
  have hfil : filter_workspaces names data.Workspaces
      = .ok (records.filter (fun w =>
          match w.title with
          | some t => names.contains t
          | none => false)) := by
    rcases hdata with h | h <;> rw [h]
    · exact filter_ws_sequence_all_titles names records ht
    · rw [filter_workspaces, filter_ws_mapping_enumFrom names records 0]
      exact filter_ws_sequence_all_titles names records ht
  refine ⟨hfil, ?_⟩
  have hrend : render_workspaces data.Workspaces = render_ws_sequence records := by
    rcases hdata with h | h <;> rw [h]
    · rfl
    · rw [render_workspaces, render_ws_mapping_enumFrom records 0]
  by_cases hn : names.isEmpty
  · have hsel : spec_selected_workspaces names records = records := by
      simp [spec_selected_workspaces, hn]
    unfold make_bookmarks
    simp [hn, hsel, hrend,
      show render_workspaces (PyColl.sequence records) = render_ws_sequence records from rfl]
  · have hsel : spec_selected_workspaces names records
        = records.filter (fun w =>
            match w.title with
            | some t => names.contains t
            | none => false) := by
      simp [spec_selected_workspaces, hn]
    unfold make_bookmarks
    simp [hn, hsel, hfil, Except.map, render_workspaces, render_ws_mapping_enumFrom]

theorem claim_C7_witness :
    filter_workspaces ["Work"]
        (ExportData.mk (.sequence
          [⟨some "Work", none⟩, ⟨some "Home", none⟩, ⟨some "Work2", none⟩])).Workspaces
      = .ok ([⟨some "Work", none⟩, ⟨some "Home", none⟩, ⟨some "Work2", none⟩].filter
          (fun w =>
            match w.title with
            | some t => ["Work"].contains t
            | none => false))
    ∧ make_bookmarks
        (ExportData.mk (.sequence
          [⟨some "Work", none⟩, ⟨some "Home", none⟩, ⟨some "Work2", none⟩])) ["Work"] true
      = make_bookmarks
          (ExportData.mk (.sequence (spec_selected_workspaces ["Work"]
            [⟨some "Work", none⟩, ⟨some "Home", none⟩, ⟨some "Work2", none⟩]))) [] true :=
  claim_C7 [⟨some "Work", none⟩, ⟨some "Home", none⟩, ⟨some "Work2", none⟩] ["Work"] true
    (ExportData.mk (.sequence
      [⟨some "Work", none⟩, ⟨some "Home", none⟩, ⟨some "Work2", none⟩]))
    (Or.inl rfl) (by decide)

/-! ## Missing-field failures and the label fallback -/

theorem render_tabs_sequence_url_defect :
    ∀ tl : List Tab, (∃ tb ∈ tl, tb.url = none) →
      render_tabs_sequence tl = .error (.keyError "url") := by
  intro tl
  induction tl with
  | nil => rintro ⟨tb, h, _⟩; cases h
  | cons tb tl' ih =>
    rintro ⟨tb', htb', hurl⟩
    cases hu : tb.url with
    | none => simp [render_tabs_sequence, render_tab, hu]
    | some u =>
      rcases List.mem_cons.1 htb' with rfl | hmem
      · rw [hu] at hurl; cases hurl
      · simp [render_tabs_sequence, render_tab, hu, ih ⟨tb', hmem, hurl⟩, Except.map]

theorem render_tabs_sequence_all_urls :
    ∀ tl : List Tab, (∀ tb ∈ tl, tb.url ≠ none) →
      ∃ lines, render_tabs_sequence tl = .ok lines := by
  intro tl
  induction tl with
  | nil => intro _; exact ⟨[], rfl⟩
  | cons tb tl' ih =>
    intro h
    have hu := h tb (by simp)
    cases hu' : tb.url with
    | none => exact absurd hu' hu
    | some u =>
      obtain ⟨lines, hl⟩ := ih (fun x hx => h x (by simp [hx]))
      simp [render_tabs_sequence, render_tab, hu', hl, Except.map]

theorem render_workspace_defect (w : AWorkspace)
    (h : w.title = none ∨ ∃ tb ∈ w.tabs.getD [], tb.url = none) :
    ∃ k, render_workspace (wsAsSequence w) = .error (.keyError k) := by
  cases hti : w.title with
  | none => exact ⟨"title", by simp [render_workspace, wsAsSequence, hti]⟩
  | some t =>
    rcases h with h | h
    · rw [hti] at h; cases h
    · cases htb : w.tabs with
      | none => rw [htb] at h; simp at h
      | some tl =>
        rw [htb] at h
        refine ⟨"url", ?_⟩
        simp [render_workspace, wsAsSequence, hti, htb,
          render_tabs_sequence_url_defect tl (by simpa using h), Except.map]

theorem render_workspace_clean (w : AWorkspace)
    (h1 : w.title ≠ none) (h2 : ∀ tb ∈ w.tabs.getD [], tb.url ≠ none) :
    ∃ lines, render_workspace (wsAsSequence w) = .ok lines := by
  cases hti : w.title with
  | none => exact absurd hti h1
  | some t =>
    cases htb : w.tabs with
    | none => simp [render_workspace, wsAsSequence, hti, htb, Except.map]
    | some tl =>
      obtain ⟨lines, hl⟩ :=
        render_tabs_sequence_all_urls tl (by rw [htb] at h2; simpa using h2)
      simp [render_workspace, wsAsSequence, hti, htb, hl, Except.map]

theorem render_ws_sequence_defect :
    ∀ l : List AWorkspace,
      (∃ w ∈ l, w.title = none ∨ ∃ tb ∈ w.tabs.getD [], tb.url = none) →
      ∃ k, render_ws_sequence (l.map wsAsSequence) = .error (.keyError k) := by
  intro l
  induction l with
  | nil => rintro ⟨w, h, _⟩; cases h
  | cons w l' ih =>
    rintro ⟨w', hw', hdef⟩
    by_cases hw : w.title = none ∨ ∃ tb ∈ w.tabs.getD [], tb.url = none
    · obtain ⟨k, hk⟩ := render_workspace_defect w hw
      exact ⟨k, by simp [render_ws_sequence, hk]⟩
    · push_neg at hw
      obtain ⟨h1, h2⟩ := hw
      obtain ⟨lines, hl⟩ := render_workspace_clean w h1 h2
      rcases List.mem_cons.1 hw' with rfl | hmem
      · rcases hdef with h | ⟨tb, htb, hu⟩
        · exact absurd h h1
        · exact absurd hu (h2 tb htb)
      · obtain ⟨k, hk⟩ := ih ⟨w', hmem, hdef⟩
        exact ⟨k, by simp [render_ws_sequence, hl, hk, Except.map]⟩

theorem filter_ws_sequence_title_defect (names : List String) :
    ∀ l : List Workspace, (∃ w ∈ l, w.title = none) →
      filter_ws_sequence names l = .error (.keyError "title") := by
  intro l
  induction l with
  | nil => rintro ⟨w, h, _⟩; cases h
  | cons w l' ih =>
    rintro ⟨w', hw', hdef⟩
    cases hti : w.title with
    | none => simp [filter_ws_sequence, hti]
    | some t =>
      rcases List.mem_cons.1 hw' with rfl | hmem
      · rw [hti] at hdef; cases hdef
      · simp [filter_ws_sequence, hti, ih ⟨w', hmem, hdef⟩, Except.map]

/-- Claim C8: a missing workspace `title` or a missing tab `url`
makes `make_bookmarks` fail with a `KeyError` (no default is
substituted); the only fallback is that a tab without `title`
renders as a hyperlink whose visible text is its `url`. -/
theorem claim_C8 (records : List AWorkspace) (names : List String) (wrapped : Bool) :
    ((∃ w ∈ records, w.title = none) →
      ∃ k, make_bookmarks (treeAsSequence records) names wrapped
        = .error (PyErr.keyError k))
    ∧ ((∃ w ∈ records, ∃ tb ∈ w.tabs.getD [], tb.url = none) →
      ∃ k, make_bookmarks (treeAsSequence records) [] wrapped
        = .error (PyErr.keyError k))
    ∧ ∀ u : String,
        render_tab ⟨some u, none⟩
          = .ok ("\t\t\t<DT><A HREF=\"" ++ u ++ "\">" ++ u ++ "</a>") := by
  refine ⟨?_, ?_, ?_⟩
  · rintro ⟨w, hw, hti⟩
    by_cases hn : names.isEmpty
    · obtain ⟨k, hk⟩ := render_ws_sequence_defect records ⟨w, hw, Or.inl hti⟩
      exact ⟨k, by unfold make_bookmarks; simp [hn, treeAsSequence, render_workspaces, hk]⟩
    · have hferr : filter_ws_sequence names (records.map wsAsSequence)
          = .error (.keyError "title") :=
        filter_ws_sequence_title_defect names _
          ⟨wsAsSequence w, List.mem_map_of_mem _ hw, hti⟩
      exact ⟨"title",
        by unfold make_bookmarks; simp [hn, treeAsSequence, filter_workspaces, hferr, Except.map]⟩
  · rintro ⟨w, hw, tb, htb, hurl⟩
    obtain ⟨k, hk⟩ := render_ws_sequence_defect records ⟨w, hw, Or.inr ⟨tb, htb, hurl⟩⟩
    exact ⟨k, by unfold make_bookmarks; simp [treeAsSequence, render_workspaces, hk]⟩
  · intro u
    rfl

theorem claim_C8_witness :
    (∃ k, make_bookmarks (treeAsSequence [⟨none, none⟩]) [] true
      = .error (PyErr.keyError k))
    ∧ render_tab ⟨some "https://x.test", none⟩
      = .ok ("\t\t\t<DT><A HREF=\"" ++ "https://x.test" ++ "\">" ++ "https://x.test" ++ "</a>") :=
  ⟨(claim_C8 [⟨none, none⟩] [] true).1 ⟨⟨none, none⟩, by simp, rfl⟩,
   (claim_C8 [⟨none, none⟩] [] true).2.2 "https://x.test"⟩

/-- Claim C9: with wrapping on, the output is the preamble, exactly
one outer group line titled `Workona Export`, all workspace lines,
and the wrap-closing lines; with wrapping off, the workspace lines
sit directly in the top-level list and no such group appears. -/
theorem claim_C9 (data : ExportData) (L : List String)
    (h : render_workspaces data.Workspaces = .ok L) :
    make_bookmarks data [] true
      = .ok (String.intercalate "\n"
          (preamble_lines
            ++ ["<DT><H3 FOLDED>Workona Export</H3>\n<DL>"]
            ++ L ++ ["</DL></DT>", "</DL>"]))
    ∧ make_bookmarks data [] false
      = .ok (String.intercalate "\n" (preamble_lines ++ L ++ ["</DL>"])) := by
  unfold make_bookmarks
  constructor <;>
    simp [h, show ("<DT><H3 FOLDED>" ++ "Workona Export" ++ "</H3>\n<DL>" : String)
        = "<DT><H3 FOLDED>Workona Export</H3>\n<DL>" from by decide]

theorem claim_C9_witness :
    make_bookmarks ⟨.sequence [⟨some "W", none⟩]⟩ [] true
      = .ok (String.intercalate "\n"
          (preamble_lines
            ++ ["<DT><H3 FOLDED>Workona Export</H3>\n<DL>"]
            ++ ["\t<DT><H3 FOLDED>W</H3>", "\t\t<DL><p>", "\t\t</DL>", "\t</DT>"]
            ++ ["</DL></DT>", "</DL>"]))
    ∧ make_bookmarks ⟨.sequence [⟨some "W", none⟩]⟩ [] false
      = .ok (String.intercalate "\n"
          (preamble_lines
            ++ ["\t<DT><H3 FOLDED>W</H3>", "\t\t<DL><p>", "\t\t</DL>", "\t</DT>"]
            ++ ["</DL>"])) :=
  claim_C9 ⟨.sequence [⟨some "W", none⟩]⟩
    ["\t<DT><H3 FOLDED>W</H3>", "\t\t<DL><p>", "\t\t</DL>", "\t</DT>"] (by rfl)

/-! ## The store model never touches pre-existing heap cells -/

theorem lookupAddr_alloc (σ : Store) (d : Dict) (a : Nat) (ha : a < σ.next) :
    lookupAddr (alloc σ d).1 a = lookupAddr σ a := by
  unfold alloc lookupAddr
  congr 1
  apply List.find?_cons_of_neg
  simp
  omega

theorem pyCopy_next (σ : Store) (v : HVal) : σ.next ≤ (pyCopy σ v).1.next := by
  unfold pyCopy
  cases v with
  | ref r =>
    cases h : lookupAddr σ r with
    | some d => simp [h, alloc]
    | none => simp [h]
  | int n => exact le_rfl
  | str s => exact le_rfl
  | list l => exact le_rfl

theorem pyCopy_lookup (σ : Store) (v : HVal) (a : Nat) (ha : a < σ.next) :
    lookupAddr (pyCopy σ v).1 a = lookupAddr σ a := by
  unfold pyCopy
  cases v with
  | ref r =>
    cases h : lookupAddr σ r with
    | some d => simpa [h] using lookupAddr_alloc σ d a ha
    | none => simp [h]
  | int n => rfl
  | str s => rfl
  | list l => rfl

theorem lookupAddr_setItem (σ : Store) (i : Nat) (k v : HVal) (a : Nat) (ha : a ≠ i) :
    lookupAddr (setItem σ i k v) a = lookupAddr σ a := by
  unfold setItem lookupAddr
  simp only []
  induction σ.heap with
  | nil => rfl
  | cons p h' ih =>
    simp only [List.map_cons]
    by_cases hpa : (p.1 == a) = true
    · have hp1 : p.1 = a := by simpa using hpa
      have hpi : ¬ ((p.1 == i) = true) := by
        simp only [beq_iff_eq, hp1]
        exact ha
      rw [if_neg hpi,
        @List.find?_cons_of_pos _ (fun q => q.1 == a) p _ hpa,
        @List.find?_cons_of_pos _ (fun q => q.1 == a) p _ hpa]
    · have hfst : ¬ (((if (p.1 == i) = true then (p.1, setEntries p.2 k v) else p).1 == a) = true) := by
        by_cases hpi : (p.1 == i) = true
        · rw [if_pos hpi]
          exact hpa
        · rw [if_neg hpi]
          exact hpa
      rw [@List.find?_cons_of_neg _ (fun q : Nat × Dict => q.1 == a) _ _ hfst,
        @List.find?_cons_of_neg _ (fun q : Nat × Dict => q.1 == a) p _ hpa]
      exact ih

theorem filter_loop_st_frame (names : List String) (collV : HVal) (inner : Nat) (B : Nat)
    (hinner : B ≤ inner) :
    ∀ (items : List HVal) (σ : Store) (widx seq : Nat), B ≤ σ.next →
      B ≤ (filter_loop_st names collV inner σ widx seq items).1.next
      ∧ ∀ a, a < B →
          lookupAddr (filter_loop_st names collV inner σ widx seq items).1 a
            = lookupAddr σ a := by
  intro items
  induction items with
  | nil =>
    intro σ widx seq hB
    exact ⟨hB, fun a _ => rfl⟩
  | cons wvalue rest ih =>
    intro σ widx seq hB
    simp only [filter_loop_st]
    split
    · exact ⟨hB, fun a _ => rfl⟩
    · rename_i workspace heq
      split
      · exact ⟨hB, fun a _ => rfl⟩
      · rename_i t heq2
        split
        · have hnext2 : B ≤ (setItem (pyCopy σ workspace).1 inner (.int seq)
              (pyCopy σ workspace).2).next := by
            have hs : (setItem (pyCopy σ workspace).1 inner (.int seq)
                (pyCopy σ workspace).2).next = (pyCopy σ workspace).1.next := rfl
            rw [hs]
            exact hB.trans (pyCopy_next σ workspace)
          obtain ⟨hn', hl'⟩ := ih _ (widx + 1) (seq + 1) hnext2
          refine ⟨hn', fun a ha => ?_⟩
          rw [hl' a ha,
            lookupAddr_setItem _ _ _ _ a (by omega : a ≠ inner),
            pyCopy_lookup σ workspace a (lt_of_lt_of_le ha hB)]
        · exact ih σ (widx + 1) seq hB

/-- Claim C10: `make_bookmarks` never mutates the caller's object
graph: every heap cell allocated before the call holds the same
dictionary after it (the filtering stage only allocates fresh
dictionaries — `filtered`, its inner collection, and shallow copies —
and writes only into those; the render stage performs no writes).
Hence the `data` argument is structurally identical after the
call. -/
theorem claim_C10 (σ : Store) (dataV : HVal) (names : List String) (wrapped : Bool)
    (a : Nat) (ha : a < σ.next) :
    lookupAddr (make_bookmarks_st σ dataV names wrapped).1 a = lookupAddr σ a := by
  unfold make_bookmarks_st
  by_cases hn : names.isEmpty
  · simp [hn]
  · simp only [hn, Bool.false_eq_true, if_false]
    have h1 : lookupAddr (alloc σ []).1 a = lookupAddr σ a := lookupAddr_alloc σ [] a ha
    have ha1 : a < (alloc σ []).1.next := by
      simp only [alloc]
      omega
    have h2 : lookupAddr (alloc (alloc σ []).1 [(.str "Workspaces", .ref (alloc σ []).2)]).1 a
        = lookupAddr σ a := by
      rw [lookupAddr_alloc _ _ a ha1, h1]
    cases hgi : getItem_st (alloc (alloc σ []).1 [(.str "Workspaces", .ref (alloc σ []).2)]).1
        dataV (.str "Workspaces") with
    | error e => simpa [hgi] using h2
    | ok collV =>
      cases hit : iterVals (alloc (alloc σ []).1
          [(.str "Workspaces", .ref (alloc σ []).2)]).1 collV with
      | error e => simpa [hgi, hit] using h2
      | ok items =>
        have hframe := filter_loop_st_frame names collV (alloc σ []).2 σ.next
          (le_of_eq rfl) items
          (alloc (alloc σ []).1 [(.str "Workspaces", .ref (alloc σ []).2)]).1 0 0
          (by simp only [alloc]; omega)
        obtain ⟨-, hl⟩ := hframe
        have hl' := hl a ha
        rcases hres : filter_loop_st names collV (alloc σ []).2
            (alloc (alloc σ []).1 [(.str "Workspaces", .ref (alloc σ []).2)]).1 0 0 items
          with ⟨σ3, res⟩
        rw [hres] at hl'
        cases res with
        | error e => simp only [hgi, hit, hres]; rw [hl', h2]
        | ok u => simp only [hgi, hit, hres]; rw [hl', h2]

theorem claim_C10_witness :
    lookupAddr
        (make_bookmarks_st
          ⟨[(0, [(.str "url", .str "https://x.test")]),
            (1, [(.str "title", .str "Work"), (.str "tabs", .list [.ref 0])]),
            (2, [(.int 0, .ref 1)]),
            (3, [(.str "Workspaces", .ref 2)])], 4⟩
          (.ref 3) ["Work"] true).1 2
      = lookupAddr
          ⟨[(0, [(.str "url", .str "https://x.test")]),
            (1, [(.str "title", .str "Work"), (.str "tabs", .list [.ref 0])]),
            (2, [(.int 0, .ref 1)]),
            (3, [(.str "Workspaces", .ref 2)])], 4⟩ 2 :=
  claim_C10
    ⟨[(0, [(.str "url", .str "https://x.test")]),
      (1, [(.str "title", .str "Work"), (.str "tabs", .list [.ref 0])]),
      (2, [(.int 0, .ref 1)]),
      (3, [(.str "Workspaces", .ref 2)])], 4⟩
    (.ref 3) ["Work"] true 2 (by decide)

end Workona
